import Mathlib

/-!
Shallow embedding of the simpleDB buffer pool manager
(`src/buffer/buffer_pool_manager.cpp`) and its LRU replacer
(`src/buffer/lru_replacer.cpp`), together with theorems settling the
spec claims about them.

Modelling conventions:
* `page_id_t` and `frame_id_t` (C++ `int32_t`) become `Int`; the invalid
  page id sentinel is `-1`, as in the source.
* A page's byte buffer is abstracted to a single `Nat` (its content);
  `ResetMemory` zeroes it.
* `std::unordered_map<page_id_t, frame_id_t>` becomes an association
  list with unique keys; `std::list<frame_id_t>` becomes `List Int`
  (front = head).
* The disk manager is explicit state: a store plus logs of every
  `ReadPage` / `WritePage` / `AllocatePage` / `DeallocatePage` call, so
  that "the code performed no disk write" is expressible as an equality
  of states.
* The replacer's doubly linked list plus hash index is modelled as the
  single list `order` (most recently inserted at the head, LRU victim at
  the tail); the source keeps `hash` and the list in sync, and `size`
  equal to the list length, so one list carries the whole state.
-/

/-- A frame descriptor (`Page` in the source): current page id, pin
count, dirty flag and (abstracted) data bytes. -/
structure Page where
  page_id_ : Int
  pin_count_ : Int
  is_dirty_ : Bool
  data_ : Nat
deriving DecidableEq, Repr

/-- A fresh frame: invalid page id, unpinned, clean, zeroed memory. -/
def Page.empty : Page := { page_id_ := -1, pin_count_ := 0, is_dirty_ := false, data_ := 0 }

/-- The disk manager's observable state: the page store, the next page
id handed out by `AllocatePage`, and logs of every call made to it. -/
structure DiskManager where
  store : List (Int × Nat)
  next_page_id : Int
  readLog : List Int
  writeLog : List (Int × Nat)
  allocLog : List Int
  deallocLog : List Int
deriving DecidableEq, Repr

def DiskManager.WritePage (d : DiskManager) (pid : Int) (data : Nat) : DiskManager :=
  { d with
    store := (pid, data) :: d.store.filter (fun e => e.1 ≠ pid)
    writeLog := d.writeLog ++ [(pid, data)] }

def DiskManager.ReadPage (d : DiskManager) (pid : Int) : Nat × DiskManager :=
  (((d.store.find? (fun e => e.1 = pid)).map Prod.snd).getD 0,
   { d with readLog := d.readLog ++ [pid] })

def DiskManager.AllocatePage (d : DiskManager) : Int × DiskManager :=
  (d.next_page_id,
   { d with next_page_id := d.next_page_id + 1, allocLog := d.allocLog ++ [d.next_page_id] })

def DiskManager.DeallocatePage (d : DiskManager) (pid : Int) : DiskManager :=
  { d with deallocLog := d.deallocLog ++ [pid] }

/-- An empty disk whose first allocated page id will be `n`. -/
def DiskManager.init (n : Int) : DiskManager :=
  { store := [], next_page_id := n, readLog := [], writeLog := [], allocLog := [], deallocLog := [] }

/-- The LRU replacer (`lru_replacer.cpp`): `order` lists the tracked
frames from most recently inserted (head) to least recently inserted
(tail, the victim end); `capcity` keeps the source's field name. -/
structure LRUReplacer where
  order : List Int
  capcity : Nat
deriving DecidableEq, Repr

/-- `LRUReplacer::Size`: the number of tracked frames. -/
def LRUReplacer.Size (r : LRUReplacer) : Nat := r.order.length

/-- `LRUReplacer::Victim`: if empty return `none`; otherwise remove and
return the frame at the LRU end (`R->left`). -/
def LRUReplacer.Victim (r : LRUReplacer) : Option Int × LRUReplacer :=
  match r.order.getLast? with
  | none => (none, r)
  | some f => (some f, { r with order := r.order.dropLast })

/-- `LRUReplacer::Pin`: if the frame is tracked, remove it; else no-op. -/
def LRUReplacer.Pin (r : LRUReplacer) (f : Int) : LRUReplacer :=
  { r with order := r.order.erase f }

/-- `LRUReplacer::Unpin`: no-op when already tracked; otherwise, if the
tracked count equals `capcity`, first discard the LRU-end frame, then
insert the new frame at the MRU end (`L->right`). -/
def LRUReplacer.Unpin (r : LRUReplacer) (f : Int) : LRUReplacer :=
  if f ∈ r.order then r
  else
    let o := if r.order.length = r.capcity then r.order.dropLast else r.order
    { r with order := f :: o }

/-- Lookup in the page table (`page_table_.count` / `operator[]`). -/
def ptLookup : List (Int × Int) → Int → Option Int
  | [], _ => none
  | e :: t, k => if e.1 = k then some e.2 else ptLookup t k

/-- `page_table_.erase(k)`: drop the entry with key `k`. -/
def ptErase : List (Int × Int) → Int → List (Int × Int)
  | [], _ => []
  | e :: t, k => if e.1 = k then ptErase t k else e :: ptErase t k

/-- `page_table_[k] = v`: bind key `k` to `v` (keys stay unique). -/
def ptInsert (l : List (Int × Int)) (k v : Int) : List (Int × Int) :=
  (k, v) :: ptErase l k

/-- The buffer pool manager's state, with the source's member names. -/
structure BufferPoolManager where
  pool_size_ : Nat
  pages_ : List Page
  page_table_ : List (Int × Int)
  free_list_ : List Int
  replacer_ : LRUReplacer
deriving DecidableEq, Repr

/-- The constructor: every frame fresh and on the free list. -/
def BufferPoolManager.init (pool_size : Nat) : BufferPoolManager :=
  { pool_size_ := pool_size
    pages_ := List.replicate pool_size Page.empty
    page_table_ := []
    free_list_ := (List.range pool_size).map (fun i => (i : Int))
    replacer_ := { order := [], capcity := pool_size } }

/-- `pages_[fid]`. -/
def BufferPoolManager.pageAt (bp : BufferPoolManager) (fid : Int) : Page :=
  bp.pages_.getD fid.toNat Page.empty

/-- Write `pages_[fid]`. -/
def BufferPoolManager.setPageAt (bp : BufferPoolManager) (fid : Int) (p : Page) : BufferPoolManager :=
  { bp with pages_ := bp.pages_.set fid.toNat p }

/-- The shared tail of `FetchPageImpl`'s miss path (source lines 61-77):
write back if dirty, zero the pin count, move the page-table entry,
reset metadata and memory, pin, and read the page in from disk. -/
def BufferPoolManager.fetchInto (bp : BufferPoolManager) (d : DiskManager)
    (page_id fid : Int) : Option Int × BufferPoolManager × DiskManager :=
  let p := bp.pageAt fid
  let pd : Page × DiskManager :=
    if p.is_dirty_ then ({ p with is_dirty_ := false }, d.WritePage p.page_id_ p.data_)
    else (p, d)
  let p := pd.1
  let p := { p with pin_count_ := 0 }
  let bp := { bp with page_table_ := ptErase bp.page_table_ p.page_id_ }
  let bp := { bp with page_table_ := ptInsert bp.page_table_ page_id fid }
  let p := { p with page_id_ := page_id, data_ := 0 }
  let p := { p with pin_count_ := p.pin_count_ + 1 }
  let bd := pd.2.ReadPage page_id
  let p := { p with data_ := bd.1 }
  (some fid, bp.setPageAt fid p, bd.2)

/-- `BufferPoolManager::FetchPageImpl`. -/
def BufferPoolManager.FetchPageImpl (bp : BufferPoolManager) (d : DiskManager)
    (page_id : Int) : Option Int × BufferPoolManager × DiskManager :=
  match ptLookup bp.page_table_ page_id with
  | some fid =>
      let p := bp.pageAt fid
      let bp := { bp with replacer_ := bp.replacer_.Pin fid }
      let bp := bp.setPageAt fid { p with pin_count_ := p.pin_count_ + 1 }
      (some fid, bp, d)
  | none =>
      match bp.free_list_ with
      | fid :: rest => BufferPoolManager.fetchInto { bp with free_list_ := rest } d page_id fid
      | [] =>
          if 0 < bp.replacer_.Size then
            match bp.replacer_.Victim with
            | (some fid, r) =>
                let bp := { bp with replacer_ := r }
                let bp := { bp with
                  page_table_ := ptErase bp.page_table_ (bp.pageAt fid).page_id_ }
                BufferPoolManager.fetchInto bp d page_id fid
            | (none, _) => (none, bp, d)
          else (none, bp, d)

/-- `BufferPoolManager::UnpinPageImpl`. -/
def BufferPoolManager.UnpinPageImpl (bp : BufferPoolManager) (d : DiskManager)
    (page_id : Int) (is_dirty : Bool) : Bool × BufferPoolManager × DiskManager :=
  match ptLookup bp.page_table_ page_id with
  | none => (false, bp, d)
  | some fid =>
      let p := bp.pageAt fid
      if p.pin_count_ ≤ 0 then (false, bp, d)
      else
        let d := if is_dirty then d.WritePage page_id p.data_ else d
        let p := { p with pin_count_ := p.pin_count_ - 1 }
        let bp := if p.pin_count_ ≤ (0 : Int) then { bp with replacer_ := bp.replacer_.Unpin fid } else bp
        let p := { p with is_dirty_ := p.is_dirty_ || is_dirty }
        (true, bp.setPageAt fid p, d)

/-- `BufferPoolManager::FlushPageImpl`. -/
def BufferPoolManager.FlushPageImpl (bp : BufferPoolManager) (d : DiskManager)
    (page_id : Int) : Bool × BufferPoolManager × DiskManager :=
  match ptLookup bp.page_table_ page_id with
  | none => (false, bp, d)
  | some fid =>
      let p := bp.pageAt fid
      let d := d.WritePage page_id p.data_
      (true, bp.setPageAt fid { p with is_dirty_ := false }, d)

/-- The shared tail of `NewPageImpl` once a frame `fid` has been chosen
(source lines 132-140): drop the old page-table entry, set the new
metadata, and publish the new page id. -/
def BufferPoolManager.newInto (bp : BufferPoolManager) (d : DiskManager)
    (pid fid : Int) : Option Int × Int × BufferPoolManager × DiskManager :=
  let p := bp.pageAt fid
  let bp := { bp with page_table_ := ptErase bp.page_table_ p.page_id_ }
  let p := { p with page_id_ := pid }
  let p := { p with pin_count_ := p.pin_count_ + 1 }
  let p := { p with is_dirty_ := true }
  let bp := bp.setPageAt fid p
  let bp := { bp with page_table_ := ptInsert bp.page_table_ pid fid }
  (some fid, pid, bp, d)

/-- `BufferPoolManager::NewPageImpl`; the second component of the result
is the value written through the `page_id` out-parameter. -/
def BufferPoolManager.NewPageImpl (bp : BufferPoolManager) (d : DiskManager) :
    Option Int × Int × BufferPoolManager × DiskManager :=
  let ad := d.AllocatePage
  let pid := ad.1
  let d := ad.2
  match bp.free_list_ with
  | fid :: rest => BufferPoolManager.newInto { bp with free_list_ := rest } d pid fid
  | [] =>
      if 0 < bp.replacer_.Size then
        match bp.replacer_.Victim with
        | (some fid, r) =>
            let bp := { bp with replacer_ := r }
            let bp := { bp with
              page_table_ := ptErase bp.page_table_ (bp.pageAt fid).page_id_ }
            BufferPoolManager.newInto bp d pid fid
        | (none, _) => (none, pid, bp, d)
      else (none, pid, bp, d)

/-- `BufferPoolManager::DeletePageImpl`. -/
def BufferPoolManager.DeletePageImpl (bp : BufferPoolManager) (d : DiskManager)
    (page_id : Int) : Bool × BufferPoolManager × DiskManager :=
  match ptLookup bp.page_table_ page_id with
  | none => (true, bp, d)
  | some fid =>
      let p := bp.pageAt fid
      if p.pin_count_ ≠ 0 then (false, bp, d)
      else
        let bp := { bp with page_table_ := ptErase bp.page_table_ fid }
        let bp := bp.setPageAt fid { p with data_ := 0 }
        let bp := { bp with free_list_ := bp.free_list_ ++ [fid] }
        (true, bp, d)

/-- `BufferPoolManager::FlushAllPagesImpl`: iterate the page table,
skipping pages whose `is_dirty_` is true and writing the others, then
clear the page table. -/
def BufferPoolManager.FlushAllPagesImpl (bp : BufferPoolManager) (d : DiskManager) :
    BufferPoolManager × DiskManager :=
  let d := bp.page_table_.foldl
    (fun d e =>
      let p := bp.pageAt e.2
      if p.is_dirty_ then d else d.WritePage e.1 p.data_) d
  ({ bp with page_table_ := [] }, d)

/-! ### Operation sequences on the pool -/

/-- One call to the pool API. -/
inductive PoolOp where
  | fetch (pid : Int)
  | newp
  | unpin (pid : Int) (dirty : Bool)
  | flush (pid : Int)
  | flushAll
  | del (pid : Int)
deriving DecidableEq, Repr

/-- Run one pool operation, discarding the returned value. -/
def poolStep (s : BufferPoolManager × DiskManager) (op : PoolOp) :
    BufferPoolManager × DiskManager :=
  match op with
  | .fetch pid => (s.1.FetchPageImpl s.2 pid).2
  | .newp => (s.1.NewPageImpl s.2).2.2
  | .unpin pid dirty => (s.1.UnpinPageImpl s.2 pid dirty).2
  | .flush pid => (s.1.FlushPageImpl s.2 pid).2
  | .flushAll => s.1.FlushAllPagesImpl s.2
  | .del pid => (s.1.DeletePageImpl s.2 pid).2

/-- Run a sequence of pool operations from the initial pool state. -/
def runPool (pool_size : Nat) (ops : List PoolOp) : BufferPoolManager × DiskManager :=
  ops.foldl poolStep (BufferPoolManager.init pool_size, DiskManager.init 0)

/-- Invariant I2 as a decidable check: every frame id is in exactly one
of the free list and the page table's range. -/
def invI2 (bp : BufferPoolManager) : Bool :=
  (List.range bp.pool_size_).all (fun f =>
    xor (bp.free_list_.contains (f : Int)) (bp.page_table_.any (fun e => e.2 = (f : Int))))

/-! ### Operation sequences on the replacer, and the spec-level LRU -/

/-- One call to the replacer API. -/
inductive ROp where
  | unpin (f : Int)
  | pin (f : Int)
  | victim
deriving DecidableEq, Repr

/-- Run one replacer operation, discarding `Victim`'s returned frame. -/
def replStep (r : LRUReplacer) (op : ROp) : LRUReplacer :=
  match op with
  | .unpin f => r.Unpin f
  | .pin f => r.Pin f
  | .victim => r.Victim.2

/-- Run a sequence of replacer operations. -/
def replRun (r : LRUReplacer) (ops : List ROp) : LRUReplacer :=
  ops.foldl replStep r

/-- Modelled from the spec (§4.1): the tracked frames in order of their
effective `Unpin` insertion, earliest first. `Unpin` of a tracked frame
is a no-op, otherwise it appends; `Pin` removes a tracked frame;
`Victim` removes the earliest. The spec-level replacer never discards a
frame on its own. -/
def specStep (l : List Int) (op : ROp) : List Int :=
  match op with
  | .unpin f => if f ∈ l then l else l ++ [f]
  | .pin f => l.erase f
  | .victim => l.tail

/-- The spec-level tracked list after a sequence of operations. -/
def specPending (ops : List ROp) : List Int :=
  ops.foldl specStep []

/-- `capOk cap l ops` holds when, replaying `ops` from spec-level state
`l`, every `Unpin` of an untracked frame finds the tracked count below
`cap` — i.e. the source's discard-on-overflow branch is never reached.
The spec (§4.1, §9) states this is the case whenever a correctly
driving buffer pool uses the replacer. -/
def capGuard (cap : Nat) (l : List Int) : ROp → Bool
  | ROp.unpin f => decide (f ∈ l) || decide (l.length < cap)
  | _ => true

def capOk (cap : Nat) : List Int → List ROp → Bool
  | _, [] => true
  | l, op :: ops => capGuard cap l op && capOk cap (specStep l op) ops

/-! ### Concrete states exhibiting the divergences -/

/-- A 2-frame pool: page 5 in frame 0 (dirty, data 3), page 7 in frame 1
(clean, data 4), both pinned once. -/
def bpC1 : BufferPoolManager :=
  { pool_size_ := 2
    pages_ := [{ page_id_ := 5, pin_count_ := 1, is_dirty_ := true, data_ := 3 },
               { page_id_ := 7, pin_count_ := 1, is_dirty_ := false, data_ := 4 }]
    page_table_ := [(5, 0), (7, 1)]
    free_list_ := []
    replacer_ := { order := [], capcity := 2 } }

/-- A 1-frame pool: page 5 in frame 0, dirty with data 42, unpinned and
tracked by the replacer; the free list is empty. -/
def bpC2 : BufferPoolManager :=
  { pool_size_ := 1
    pages_ := [{ page_id_ := 5, pin_count_ := 0, is_dirty_ := true, data_ := 42 }]
    page_table_ := [(5, 0)]
    free_list_ := []
    replacer_ := { order := [0], capcity := 1 } }

/-- A 1-frame pool: page 5 resident in frame 0, clean, pin count 0,
tracked by the replacer. -/
def bpC3 : BufferPoolManager :=
  { pool_size_ := 1
    pages_ := [{ page_id_ := 5, pin_count_ := 0, is_dirty_ := false, data_ := 9 }]
    page_table_ := [(5, 0)]
    free_list_ := []
    replacer_ := { order := [0], capcity := 1 } }

/-- A 1-frame pool: page 5 resident in frame 0 with pin count 2. -/
def bpC4 : BufferPoolManager :=
  { pool_size_ := 1
    pages_ := [{ page_id_ := 5, pin_count_ := 2, is_dirty_ := false, data_ := 9 }]
    page_table_ := [(5, 0)]
    free_list_ := []
    replacer_ := { order := [], capcity := 1 } }

/-- The pool-op trace refuting I2 on a 1-frame pool: create page 0,
unpin it, create page 1 (evicting page 0), unpin it, delete page 1. -/
def traceC5 : List PoolOp :=
  [PoolOp.newp, PoolOp.unpin 0 false, PoolOp.newp, PoolOp.unpin 1 false, PoolOp.del 1]

/-! ### Refinement lemmas: the replacer tracks the spec-level LRU list -/

lemma specStep_nodup {l : List Int} (h : l.Nodup) (op : ROp) : (specStep l op).Nodup := by
  cases op with
  | unpin f =>
      simp only [specStep]
      split
      · exact h
      · simp_all [List.nodup_append]
  | pin f => exact h.erase f
  | victim =>
      cases l with
      | nil => exact h
      | cons a t => exact (List.nodup_cons.mp h).2

lemma reverse_erase {l : List Int} (h : l.Nodup) (a : Int) :
    l.reverse.erase a = (l.erase a).reverse := by
  rw [(List.nodup_reverse.mpr h).erase_eq_filter a, h.erase_eq_filter a,
    List.filter_reverse]

lemma replStep_spec {cap : Nat} {l : List Int} (h : l.Nodup) (op : ROp)
    (hg : capGuard cap l op = true) :
    replStep { order := l.reverse, capcity := cap } op =
      { order := (specStep l op).reverse, capcity := cap } := by
  cases op with
  | unpin f =>
      simp only [capGuard, Bool.or_eq_true, decide_eq_true_eq] at hg
      by_cases hf : f ∈ l
      · simp [replStep, LRUReplacer.Unpin, specStep, hf]
      · have hlen : l.length < cap := hg.resolve_left hf
        have hne : l.length ≠ cap := by omega
        simp [replStep, LRUReplacer.Unpin, specStep, hf, hne]
  | pin f =>
      simp only [replStep, LRUReplacer.Pin, specStep]
      rw [reverse_erase h]
  | victim =>
      cases l with
      | nil => rfl
      | cons a t =>
          simp [replStep, LRUReplacer.Victim, List.reverse_cons, List.getLast?_concat,
            List.dropLast_concat, specStep]

lemma replRun_spec (cap : Nat) : ∀ (ops : List ROp) (l : List Int), l.Nodup →
    capOk cap l ops = true →
    replRun { order := l.reverse, capcity := cap } ops =
      { order := (List.foldl specStep l ops).reverse, capcity := cap } ∧
    (List.foldl specStep l ops).Nodup := by
  intro ops
  induction ops with
  | nil => exact fun l h _ => ⟨rfl, h⟩
  | cons op ops ih =>
      intro l h hcap
      rw [capOk, Bool.and_eq_true] at hcap
      have hstep := replStep_spec h op hcap.1
      have hnd := specStep_nodup h op
      simp only [replRun, List.foldl_cons] at *
      rw [hstep]
      exact ih (specStep l op) hnd hcap.2

/-! ### Page-table and fetch lemmas -/

lemma ptLookup_ptErase_self (l : List (Int × Int)) (k : Int) :
    ptLookup (ptErase l k) k = none := by
  induction l with
  | nil => rfl
  | cons e t ih => by_cases he : e.1 = k <;> simp [ptErase, ptLookup, he, ih]

lemma ptLookup_ptErase_ne (l : List (Int × Int)) {k k' : Int} (h : k ≠ k') :
    ptLookup (ptErase l k') k = ptLookup l k := by
  induction l with
  | nil => rfl
  | cons e t ih =>
      by_cases he : e.1 = k'
      · have hek : e.1 ≠ k := fun hk => h (hk.symm.trans he)
        simp [ptErase, ptLookup, he, hek, ih, h, Ne.symm h]
      · by_cases he' : e.1 = k <;> simp [ptErase, ptLookup, he, he', ih, h, Ne.symm h]

lemma fetchInto_fst (bp : BufferPoolManager) (d : DiskManager) (page_id fid : Int) :
    (bp.fetchInto d page_id fid).1 = some fid := by
  simp [BufferPoolManager.fetchInto]

lemma fetchInto_pageTable (bp : BufferPoolManager) (d : DiskManager) (page_id fid : Int) :
    (bp.fetchInto d page_id fid).2.1.page_table_ =
      ptInsert (ptErase bp.page_table_ (bp.pageAt fid).page_id_) page_id fid := by
  by_cases h : (bp.pageAt fid).is_dirty_ <;>
    simp [BufferPoolManager.fetchInto, BufferPoolManager.setPageAt, h]

/-! ### Claims C1-C6: the code diverges from the spec -/

/-- Claim C1 (code_bug): at `bpC1`, `FlushAllPagesImpl` skips the dirty
page 5 and instead writes the clean page 7, leaves page 5's dirty flag
set, and clears the whole page table — the spec says exactly the dirty
pages are written (clearing their flags) and residency is unchanged. -/
theorem C1_flushAllPages_at_failing_input :
    (bpC1.FlushAllPagesImpl (DiskManager.init 10)).2.writeLog = [(7, 4)] ∧
    (bpC1.FlushAllPagesImpl (DiskManager.init 10)).1.page_table_ = [] ∧
    ((bpC1.FlushAllPagesImpl (DiskManager.init 10)).1.pageAt 0).is_dirty_ = true := by
  decide

/-- Claim C2 (code_bug): at `bpC2`, frame 0 holds dirty page 5, yet
`NewPageImpl` reuses the frame for the freshly allocated page 6 without
any `WritePage` call: the dirty bytes are discarded, violating I6. -/
theorem C2_newPage_discards_dirty_at_failing_input :
    (bpC2.pageAt 0).is_dirty_ = true ∧
    (bpC2.NewPageImpl (DiskManager.init 6)).2.2.2.writeLog = [] ∧
    ((bpC2.NewPageImpl (DiskManager.init 6)).2.2.1.pageAt 0).page_id_ = 6 ∧
    ptLookup (bpC2.NewPageImpl (DiskManager.init 6)).2.2.1.page_table_ 5 = none := by
  decide

/-- Claim C3 (code_bug): at `bpC3`, `DeletePageImpl 5` returns true and
pushes frame 0 to the free list, but it never calls `DeallocatePage`,
erases page-table key `0` (the frame id) instead of key `5` so the
mapping for page 5 survives, leaves frame 0 in the replacer, and leaves
the frame's `page_id_` at 5 instead of resetting it to invalid. -/
theorem C3_deletePage_at_failing_input :
    (bpC3.DeletePageImpl (DiskManager.init 10) 5).1 = true ∧
    (bpC3.DeletePageImpl (DiskManager.init 10) 5).2.2.deallocLog = [] ∧
    ptLookup (bpC3.DeletePageImpl (DiskManager.init 10) 5).2.1.page_table_ 5 = some 0 ∧
    (bpC3.DeletePageImpl (DiskManager.init 10) 5).2.1.replacer_.order = [0] ∧
    ((bpC3.DeletePageImpl (DiskManager.init 10) 5).2.1.pageAt 0).page_id_ = 5 ∧
    (bpC3.DeletePageImpl (DiskManager.init 10) 5).2.1.free_list_ = [0] := by
  decide

/-- Claim C4 (code_bug): at `bpC4`, `UnpinPageImpl 5 true` immediately
issues `WritePage(5, 9)` — the spec says `Unpin` records dirtiness only
and never writes to disk. -/
theorem C4_unpin_writes_at_failing_input :
    (bpC4.UnpinPageImpl (DiskManager.init 10) 5 true).1 = true ∧
    (bpC4.UnpinPageImpl (DiskManager.init 10) 5 true).2.2.writeLog = [(5, 9)] := by
  decide

/-- Claim C5 (code_bug): running `traceC5` from the initial 1-frame pool
state leaves frame 0 both on the free list and in the page table (still
mapped by page 1, because `DeletePageImpl` erased the frame id as key),
so invariant I2 fails after this operation sequence. -/
theorem C5_invariant_I2_fails_after_trace :
    invI2 (runPool 1 traceC5).1 = false ∧
    (runPool 1 traceC5).1.free_list_ = [0] ∧
    ptLookup (runPool 1 traceC5).1.page_table_ 1 = some 0 := by
  decide

/-- Claim C6 (code_bug): with capacity 1, after `Unpin 0` the replacer
is full; `Unpin 1` then discards the tracked frame 0 to make room,
whereas the spec says an `Unpin` never removes another tracked frame. -/
theorem C6_replacer_unpin_discards_at_capacity :
    (0 : Int) ∈ (LRUReplacer.Unpin { order := [], capcity := 1 } 0).order ∧
    (LRUReplacer.Unpin { order := [], capcity := 1 } 0).Size =
      (LRUReplacer.Unpin { order := [], capcity := 1 } 0).capcity ∧
    (LRUReplacer.Unpin (LRUReplacer.Unpin { order := [], capcity := 1 } 0) 1).order = [1] := by
  decide

/-- Claim C7 (confirmed): after any operation sequence that never hits
the replacer's overflow branch (which the spec guarantees for a
correctly driving pool), `Victim` returns `none` exactly when no frame
is tracked, and otherwise removes and returns the head of the
spec-level list `specPending ops` — the frame whose `Unpin` insertion
is earliest among those not since removed by a `Pin` or a prior
`Victim` — with `Size` decreasing by one. -/
theorem C7_victim_is_earliest_surviving_unpin (cap : Nat) (ops : List ROp)
    (h : capOk cap [] ops = true) :
    (specPending ops = [] →
      (replRun { order := [], capcity := cap } ops).Victim =
        (none, replRun { order := [], capcity := cap } ops)) ∧
    (∀ f t, specPending ops = f :: t →
      (replRun { order := [], capcity := cap } ops).Victim.1 = some f ∧
      (replRun { order := [], capcity := cap } ops).Victim.2.Size + 1 =
        (replRun { order := [], capcity := cap } ops).Size) := by
  have hrun := (replRun_spec cap ops [] List.nodup_nil h).1
  have hbase : ([] : List Int).reverse = [] := rfl
  rw [hbase] at hrun
  rw [hrun]
  constructor
  · intro hnil
    rw [specPending] at hnil
    rw [hnil]
    rfl
  · intro f t hcons
    rw [specPending] at hcons
    rw [hcons]
    constructor
    · simp [LRUReplacer.Victim, List.reverse_cons, List.getLast?_concat]
    · simp [LRUReplacer.Victim, List.reverse_cons, List.getLast?_concat,
        List.dropLast_concat, LRUReplacer.Size]

/-- Witness for C7: capacity 2, trace `Unpin 1; Unpin 2; Unpin 1`; the
hypothesis holds and `Victim` yields frame 1, the earliest unpinned. -/
theorem C7_witness :
    capOk 2 [] [ROp.unpin 1, ROp.unpin 2, ROp.unpin 1] = true ∧
    (replRun { order := [], capcity := 2 } [ROp.unpin 1, ROp.unpin 2, ROp.unpin 1]).Victim.1 =
      some 1 :=
  ⟨by decide,
   ((C7_victim_is_earliest_surviving_unpin 2 [ROp.unpin 1, ROp.unpin 2, ROp.unpin 1]
      (by decide)).2 1 [2] (by decide)).1⟩

/-- Claim C8 (confirmed): on a `Fetch` miss, the frame is the free
list's front when the free list is non-empty; otherwise, when the
replacer yields a victim, the fetch lands in that victim frame and the
victim's old page disappears from the page table; and when both the
free list and the replacer are empty the call returns `none` with the
state untouched. -/
theorem C8_fetch_frame_selection (bp : BufferPoolManager) (d : DiskManager) (pid : Int)
    (hmiss : ptLookup bp.page_table_ pid = none) :
    (∀ f rest, bp.free_list_ = f :: rest → (bp.FetchPageImpl d pid).1 = some f) ∧
    (bp.free_list_ = [] → ∀ f r, bp.replacer_.Victim = (some f, r) →
      (bp.FetchPageImpl d pid).1 = some f ∧
      ((bp.pageAt f).page_id_ ≠ pid →
        ptLookup (bp.FetchPageImpl d pid).2.1.page_table_ (bp.pageAt f).page_id_ = none)) ∧
    (bp.free_list_ = [] → bp.replacer_.order = [] →
      bp.FetchPageImpl d pid = (none, bp, d)) := by
  refine ⟨?_, ?_, ?_⟩
  · intro f rest hfl
    simp [BufferPoolManager.FetchPageImpl, hmiss, hfl, fetchInto_fst]
  · intro hfl f r hv
    have horder : bp.replacer_.order ≠ [] := by
      intro h0
      rw [LRUReplacer.Victim, h0] at hv
      simp at hv
    have hsize : 0 < bp.replacer_.Size :=
      List.length_pos.mpr horder
    have hstep : bp.FetchPageImpl d pid =
        BufferPoolManager.fetchInto
          { bp with replacer_ := r, page_table_ := ptErase bp.page_table_ (bp.pageAt f).page_id_ }
          d pid f := by
      simp [BufferPoolManager.FetchPageImpl, hmiss, hfl, hsize, hv, BufferPoolManager.pageAt]
    refine ⟨by rw [hstep, fetchInto_fst], ?_⟩
    intro hq
    rw [hstep, fetchInto_pageTable]
    have hpq :
        ({ bp with replacer_ := r, page_table_ := ptErase bp.page_table_ (bp.pageAt f).page_id_ } :
          BufferPoolManager).pageAt f = bp.pageAt f := rfl
    rw [hpq, ptInsert, ptLookup]
    simp only [Ne.symm hq, if_false]
    rw [ptLookup_ptErase_ne _ hq, ptLookup_ptErase_self]
  · intro hfl hord
    simp [BufferPoolManager.FetchPageImpl, hmiss, hfl, LRUReplacer.Size, hord]

/-- Witness for C8: a 1-frame pool holding unpinned page 5, fetching
page 7 with an empty free list evicts the replacer's victim frame 0 and
drops page 5 from the page table. -/
theorem C8_witness :
    ptLookup bpC3.page_table_ 7 = none ∧
    bpC3.free_list_ = [] ∧
    bpC3.replacer_.Victim = (some 0, { order := [], capcity := 1 }) ∧
    (bpC3.pageAt 0).page_id_ ≠ 7 ∧
    (bpC3.FetchPageImpl (DiskManager.init 10) 7).1 = some 0 ∧
    ptLookup (bpC3.FetchPageImpl (DiskManager.init 10) 7).2.1.page_table_ 5 = none := by
  have h := (C8_fetch_frame_selection bpC3 (DiskManager.init 10) 7 (by decide)).2.1
    (by decide) 0 { order := [], capcity := 1 } (by decide)
  exact ⟨by decide, by decide, by decide, by decide, h.1, h.2 (by decide)⟩

/-- Claim C9 (confirmed): `NewPageImpl` calls `AllocatePage` exactly
once, before it checks for an available frame: the out-parameter always
receives the freshly allocated id, and even when no free frame and no
victim exist the call returns `none` with the pool untouched while the
disk manager has nevertheless performed the allocation. -/
theorem C9_newPage_allocates_before_frame_check (bp : BufferPoolManager) (d : DiskManager) :
    (bp.NewPageImpl d).2.1 = d.next_page_id ∧
    (bp.NewPageImpl d).2.2.2.allocLog = d.allocLog ++ [d.next_page_id] ∧
    (bp.free_list_ = [] → bp.replacer_.order = [] →
      (bp.NewPageImpl d).1 = none ∧
      (bp.NewPageImpl d).2.2.1 = bp ∧
      (bp.NewPageImpl d).2.2.2 = d.AllocatePage.2) := by
  have hA : (bp.NewPageImpl d).2.1 = d.next_page_id ∧
      (bp.NewPageImpl d).2.2.2.allocLog = d.allocLog ++ [d.next_page_id] := by
    cases hfl : bp.free_list_ with
    | cons f rest =>
        simp [BufferPoolManager.NewPageImpl, BufferPoolManager.newInto,
          DiskManager.AllocatePage, hfl]
    | nil =>
        by_cases hsz : 0 < bp.replacer_.Size
        · rcases hv : bp.replacer_.Victim with ⟨of, r⟩
          cases of with
          | some f =>
              simp [BufferPoolManager.NewPageImpl, BufferPoolManager.newInto,
                DiskManager.AllocatePage, hfl, hsz, hv]
          | none =>
              simp [BufferPoolManager.NewPageImpl, DiskManager.AllocatePage, hfl, hsz, hv]
        · simp [BufferPoolManager.NewPageImpl, DiskManager.AllocatePage, hfl, hsz]
  refine ⟨hA.1, hA.2, ?_⟩
  intro hfl hord
  simp [BufferPoolManager.NewPageImpl, DiskManager.AllocatePage, hfl,
    LRUReplacer.Size, hord]

/-- Witness for C9: at `bpC4` with both the free list and the replacer
empty, `NewPageImpl` returns `none`, hands out page id 3, and leaves the
pool state exactly as it was. -/
theorem C9_witness :
    bpC4.free_list_ = [] ∧ bpC4.replacer_.order = [] ∧
    (bpC4.NewPageImpl (DiskManager.init 3)).1 = none ∧
    (bpC4.NewPageImpl (DiskManager.init 3)).2.1 = (DiskManager.init 3).next_page_id ∧
    (bpC4.NewPageImpl (DiskManager.init 3)).2.2.1 = bpC4 :=
  ⟨by decide, by decide,
   ((C9_newPage_allocates_before_frame_check bpC4 (DiskManager.init 3)).2.2
      (by decide) (by decide)).1,
   (C9_newPage_allocates_before_frame_check bpC4 (DiskManager.init 3)).1,
   ((C9_newPage_allocates_before_frame_check bpC4 (DiskManager.init 3)).2.2
      (by decide) (by decide)).2.1⟩

/-- Claim C10 (confirmed): on a `Fetch` hit the call touches no disk
state at all (no read, no write), and the pool changes only by removing
the frame from the replacer and incrementing that frame's pin count:
page table, free list, and the frame's id, dirty flag and data are
untouched. -/
theorem C10_fetch_hit_no_io (bp : BufferPoolManager) (d : DiskManager) (pid fid : Int)
    (h : ptLookup bp.page_table_ pid = some fid) (hnd : bp.replacer_.order.Nodup) :
    bp.FetchPageImpl d pid =
      (some fid,
       { bp with replacer_ := bp.replacer_.Pin fid, pages_ := bp.pages_.set fid.toNat { bp.pageAt fid with pin_count_ := (bp.pageAt fid).pin_count_ + 1 } },
       d) ∧
    fid ∉ (bp.FetchPageImpl d pid).2.1.replacer_.order := by
  have heq : bp.FetchPageImpl d pid =
      (some fid,
       { bp with replacer_ := bp.replacer_.Pin fid, pages_ := bp.pages_.set fid.toNat { bp.pageAt fid with pin_count_ := (bp.pageAt fid).pin_count_ + 1 } },
       d) := by
    simp [BufferPoolManager.FetchPageImpl, h, BufferPoolManager.setPageAt,
      BufferPoolManager.pageAt]
  refine ⟨heq, ?_⟩
  rw [heq]
  intro hmem
  exact ((hnd.mem_erase_iff).mp hmem).1 rfl

/-- Witness for C10: fetching resident page 5 at `bpC3` returns frame 0,
leaves the disk manager untouched, and removes frame 0 from the
replacer. -/
theorem C10_witness :
    ptLookup bpC3.page_table_ 5 = some 0 ∧
    (bpC3.FetchPageImpl (DiskManager.init 10) 5).2.2 = DiskManager.init 10 ∧
    (0 : Int) ∉ (bpC3.FetchPageImpl (DiskManager.init 10) 5).2.1.replacer_.order :=
  ⟨by decide,
   by rw [(C10_fetch_hit_no_io bpC3 (DiskManager.init 10) 5 0 (by decide) (by decide)).1],
   (C10_fetch_hit_no_io bpC3 (DiskManager.init 10) 5 0 (by decide) (by decide)).2⟩
